import Mathlib

/-!
Formal model of the onewire-prom-exporter (`main.go`).

The Go program discovers 1-wire temperature sensors under a device
directory, polls each device's `w1_slave` payload file in an endless
loop, parses the payload with the regular expression
`(?s).*YES.*t=(-?[0-9]+)`, converts the captured milli-degree value to
Celsius (and optionally Fahrenheit), updates Prometheus gauges and a
shared JSON snapshot slice.

Numeric values are modelled over `ℚ` (the Go code uses `float64`);
strings read from device files are modelled as `List Char`.
-/

set_option maxHeartbeats 1000000

/-- A JSON snapshot entry, mirroring Go's `type sensor struct`
(fields `SensorID`, `SensorType`, `SensorValue`). -/
structure sensor where
  SensorID : String
  SensorType : String
  SensorValue : ℚ
deriving DecidableEq

/-- Outcome of one `ioutil.ReadFile` call on the device payload file:
either an I/O error or the raw payload text. -/
inductive ReadAttempt where
  | ioError : ReadAttempt
  | payload : List Char → ReadAttempt
deriving DecidableEq

/-- The two error values `readOnewireDevicePayload` can return: the
`ioutil.ReadFile` error, or `errors.New("Failed to read device")`
after exhausting all five attempts. -/
inductive ReadErr where
  | ioErr : ReadErr
  | readFailed : ReadErr
deriving DecidableEq

/-- Result of `readOnewireDevicePayload`: the returned `float64` value,
the returned error (if any), and instrumentation counting the
`time.Sleep(1 * time.Second)` calls executed and the `ReadFile`
attempts made. -/
structure ReadResult where
  value : ℚ
  err : Option ReadErr
  sleeps : ℕ
  attempts : ℕ
deriving DecidableEq

/-- Backtracking search used to model a greedy `.*`: try the suffixes
of the text from the rightmost (empty) one leftwards and return the
first success, so the `.*` consumes as many characters as possible. -/
def findLastSuffix (p : List Char → Option (List Char)) : List Char → Option (List Char)
  | [] => p []
  | c :: rest =>
    match findLastSuffix p rest with
    | some r => some r
    | none => p (c :: rest)

/-- Model of matching the tail `t=(-?[0-9]+)` of the regular expression
at the head of the given text: literal `t=`, then a greedy optional
minus sign, then a greedy maximal nonempty digit run, which is the
capture (together with the sign). -/
def tryAt : List Char → Option (List Char)
  | 't' :: '=' :: rest =>
    match rest with
    | '-' :: r2 =>
      if (r2.takeWhile Char.isDigit).isEmpty then none
      else some ('-' :: r2.takeWhile Char.isDigit)
    | r =>
      if (r.takeWhile Char.isDigit).isEmpty then none
      else some (r.takeWhile Char.isDigit)
  | _ => none

/-- Model of matching `YES.*t=(-?[0-9]+)` at the head of the given
text: the literal `YES`, then a greedy `.*` (the rightmost position at
which the tail matches). -/
def yesThen (s1 : List Char) : Option (List Char) :=
  if ['Y', 'E', 'S'].isPrefixOf s1 then findLastSuffix tryAt (s1.drop 3)
  else none

/-- Model of `re.FindStringSubmatch` for the program's pattern
`(?s).*YES.*t=(-?[0-9]+)` with Go's (Perl-style, leftmost-first,
greedy) submatch semantics: `some c` is the text captured by the
group, `none` means no match. -/
def matchCapture (s : List Char) : Option (List Char) :=
  findLastSuffix yesThen s

/-- Is there an occurrence of the literal `YES` at position `i`? -/
def hasYes (s : List Char) (i : ℕ) : Bool :=
  ['Y', 'E', 'S'].isPrefixOf (s.drop i)

/-- Does `t=` followed by an optional sign and at least one digit
occur at position `j`? -/
def tPos (s : List Char) (j : ℕ) : Bool :=
  (tryAt (s.drop j)).isSome

/-- Numeric value of a digit string, mirroring the integer part of
`strconv.ParseFloat` on a `[0-9]+` string. -/
def parseDigits (l : List Char) : ℕ :=
  l.foldl (fun a ch => 10 * a + (ch.toNat - '0'.toNat)) 0

/-- Value of a captured `-?[0-9]+` string, mirroring
`strconv.ParseFloat(match[1], 64)` (exact over `ℚ`). -/
def parseSigned (l : List Char) : ℚ :=
  match l with
  | '-' :: r => -(parseDigits r : ℚ)
  | _ => (parseDigits l : ℚ)

/-- The retry loop body of `readOnewireDevicePayload`, iterating over
the (at most five) read attempts.  On an I/O error it returns
`(0, err)` at once; on a payload whose parse matches it returns the
captured value divided by 1000; on a parse mismatch it sleeps one
second and retries; when the attempt list is exhausted it returns
`(0, errors.New("Failed to read device"))`. -/
def readLoop : List ReadAttempt → ℕ → ℕ → ReadResult
  | [], sl, n => ⟨0, some ReadErr.readFailed, sl, n⟩
  | ReadAttempt.ioError :: _, sl, n => ⟨0, some ReadErr.ioErr, sl, n + 1⟩
  | ReadAttempt.payload s :: rest, sl, n =>
    match matchCapture s with
    | some c => ⟨parseSigned c / 1000, none, sl, n + 1⟩
    | none => readLoop rest (sl + 1) (n + 1)

/-- The five read attempts the loop `for retries := 0; retries < 5`
can make, drawn from the device's attempt stream. -/
def attemptsList (att : ℕ → ReadAttempt) : List ReadAttempt :=
  [att 0, att 1, att 2, att 3, att 4]

/-- Model of `readOnewireDevicePayload`: run the retry loop over the
device's attempt stream. -/
def readOnewireDevicePayload (att : ℕ → ReadAttempt) : ReadResult :=
  readLoop (attemptsList att) 0 0

/-- Go's `math.Round`: nearest integer, ties rounded away from zero. -/
def goRound (x : ℚ) : ℤ :=
  if x < 0 then -⌊-x + 1/2⌋ else ⌊x + 1/2⌋

/-- The Fahrenheit conversion on line 126 of `main.go`:
`math.Round((value*1.8+32)*100) / 100`. -/
def fahrenheit (c : ℚ) : ℚ :=
  (goRound ((c * 1.8 + 32) * 100) : ℚ) / 100

/-- The sensor record written into the snapshot slice for one device:
`sensor{SensorID: deviceID, SensorType: "temperature", SensorValue: value}`. -/
def mkSensor (d : String) (v : ℚ) : sensor :=
  ⟨d, "temperature", v⟩

/-- The snapshot contents a completed pass writes for a device list:
one `sensor` record per device, in device order. -/
def newSensors (devices : List String) (vals : String → ℚ) : List sensor :=
  devices.map (fun d => mkSensor d (vals d))

/-- The per-device loop body of `observeOnewireTemperature`: for each
device, overwrite slot `index` of the (shared, in-place mutated)
`sensors` slice with this pass's record, then increment `index`. -/
def passLoop (vals : String → ℚ) (k : ℕ) : List String → List sensor → List sensor
  | [], st => st
  | d :: rest, st => passLoop vals (k + 1) rest (st.set k (mkSensor d (vals d)))

/-- All states of the shared `sensors` slice observable during one
pass: the state before each device update and the final state.  The
slice is mutated in place, so each of these is visible to a concurrent
`jsonPathHandler` reader. -/
def passTrace (vals : String → ℚ) (k : ℕ) : List String → List sensor → List (List sensor)
  | [], st => [st]
  | d :: rest, st => st :: passTrace vals (k + 1) rest (st.set k (mkSensor d (vals d)))

/-- One full pass of `observeOnewireTemperature` over the device list:
the reslice `sensors = sensors[:len(onewireDeviceList)]` followed by
the per-device update loop starting at `index := 0`. -/
def runPass (devices : List String) (vals : String → ℚ) (st : List sensor) : List sensor :=
  passLoop vals 0 devices (st.take devices.length)

/-- The observable states of the shared `sensors` slice during one
pass (after the initial reslice). -/
def obsStates (devices : List String) (vals : String → ℚ) (st : List sensor) : List (List sensor) :=
  passTrace vals 0 devices (st.take devices.length)

/-- Gauge updates of one pass: `gauge.With(labels{device}).Set(f d)`
for each device in order, modelled as a map from device id to the
currently set value. -/
def passGauge (f : String → ℚ) : List String → (String → Option ℚ) → String → Option ℚ
  | [], g => g
  | d :: rest, g => passGauge f rest (fun x => if x = d then some (f d) else g x)

/-- The value the pass uses for a device: the `value` return of
`readOnewireDevicePayload` (which is `0` when an error is returned,
and is used unconditionally by the loop). -/
def deviceValue (att : String → ℕ → ReadAttempt) (d : String) : ℚ :=
  (readOnewireDevicePayload (att d)).value

/-- The snapshot slice after one pass of the observe loop, with each
device's attempt stream given by `att`. -/
def observePass (att : String → ℕ → ReadAttempt) (devices : List String) (st : List sensor) : List sensor :=
  runPass devices (deviceValue att) st

/-- The Celsius gauge state after one pass of the observe loop. -/
def observeGaugeC (att : String → ℕ → ReadAttempt) (devices : List String) (g : String → Option ℚ) : String → Option ℚ :=
  passGauge (deviceValue att) devices g

/-- The Fahrenheit gauge state after one pass of the observe loop
(updated only when `-export.fahrenheit` is set; the update applied
when it is). -/
def observeGaugeF (att : String → ℕ → ReadAttempt) (devices : List String) (g : String → Option ℚ) : String → Option ℚ :=
  passGauge (fun d => fahrenheit (deviceValue att d)) devices g

/-- Go's `strings.Contains`: does `pat` occur as a substring of `s`? -/
def strContains (s pat : String) : Bool :=
  (s.toList.tails).any (fun t => pat.toList.isPrefixOf t)

/-- The device-filtering loop of `createOnewireDeviceList`: append
every directory entry whose name does not contain `"w1_bus_master1"`,
in enumeration order. -/
def createList (names : List String) : List String :=
  names.foldl
    (fun acc n => if strContains n "w1_bus_master1" = true then acc else acc ++ [n]) []

/-- The snapshot container allocated by `createOnewireDeviceList`:
`sensors = make([]sensor, len(onewireDeviceList))`. -/
def initSensors (devices : List String) : List sensor :=
  List.replicate devices.length ⟨"", "", 0⟩

/-- Result of `createOnewireDeviceList`: either the process was
terminated inside the function by `log.Fatalf` (unreadable device
root, modelled by input `none`), or the function returned with a
device list and its returned `error` value. -/
inductive ListerOutcome where
  | fatalInLister : ListerOutcome
  | returned : List String → Option String → ListerOutcome
deriving DecidableEq

/-- Model of `createOnewireDeviceList`: `dir = none` means
`ioutil.ReadDir` failed, in which case `log.Fatalf` terminates the
process inside the function; otherwise the filtered device list is
built and `nil` is returned. -/
def createOnewireDeviceList (dir : Option (List String)) : ListerOutcome :=
  match dir with
  | none => ListerOutcome.fatalInLister
  | some names => ListerOutcome.returned (createList names) none

/-- How the startup of `observeOnewireTemperature` ends: process exit
inside the lister, process exit in the caller's error branch
(`log.Fatal("Error getting Onewire device list")`), or the poll loop
starting with the discovered devices. -/
inductive StartupOutcome where
  | exitInLister : StartupOutcome
  | exitInCaller : StartupOutcome
  | loopStarted : List String → StartupOutcome
deriving DecidableEq

/-- The startup sequence of `observeOnewireTemperature` (lines
111-116): call `createOnewireDeviceList`, enter the error branch when
it returned a non-nil error, otherwise start the loop. -/
def observeStartup (dir : Option (List String)) : StartupOutcome :=
  match createOnewireDeviceList dir with
  | ListerOutcome.fatalInLister => StartupOutcome.exitInLister
  | ListerOutcome.returned _ (some _) => StartupOutcome.exitInCaller
  | ListerOutcome.returned devs none => StartupOutcome.loopStarted devs

/-- All states of the shared `sensors` slice observable over a run of
successive passes, starting from state `st`. -/
def statesFrom (devices : List String) : List (String → ℚ) → List sensor → List (List sensor)
  | [], _ => []
  | v :: rest, st => obsStates devices v st ++ statesFrom devices rest (runPass devices v st)

/-- The snapshot invariant: full length, and slot `i` carrying a
temperature reading for the `i`-th device. -/
def goodFor (devices : List String) (st : List sensor) : Prop :=
  st.length = devices.length ∧
    ∀ i (h : i < devices.length), ∃ q, st.get? i = some (mkSensor (devices.get ⟨i, h⟩) q)

theorem fls_none_iff (p : List Char → Option (List Char)) :
    ∀ s : List Char, (findLastSuffix p s = none ↔ ∀ k, p (s.drop k) = none) := by
  intro s
  induction s with
  | nil =>
    constructor
    · intro h k
      simpa [List.drop_nil] using h
    · intro h
      simpa [findLastSuffix] using h 0
  | cons c rest ih =>
    constructor
    · intro h k
      have hr : findLastSuffix p rest = none := by
        cases hfr : findLastSuffix p rest with
        | none => rfl
        | some r => simp [findLastSuffix, hfr] at h
      have hc : p (c :: rest) = none := by
        simpa [findLastSuffix, hr] using h
      cases k with
      | zero => simpa using hc
      | succ k => simpa using (ih.mp hr) k
    · intro h
      have hr : findLastSuffix p rest = none := ih.mpr (fun k => by simpa using h (k + 1))
      have h0 : p (c :: rest) = none := by simpa using h 0
      simp [findLastSuffix, hr, h0]

theorem fls_some_iff (p : List Char → Option (List Char)) :
    ∀ (s a : List Char),
      findLastSuffix p s = some a ↔
        ∃ k, k ≤ s.length ∧ p (s.drop k) = some a ∧
          ∀ k', k < k' → k' ≤ s.length → p (s.drop k') = none := by
  intro s
  induction s with
  | nil =>
    intro a
    constructor
    · intro h
      exact ⟨0, Nat.le_refl 0, by simpa [findLastSuffix] using h, by intro k' h1 h2; simp only [List.length_nil] at h2; omega⟩
    · rintro ⟨k, hk, hp, -⟩
      have hk0 : k = 0 := Nat.le_zero.mp hk
      subst hk0
      simpa [findLastSuffix] using hp
  | cons c rest ih =>
    intro a
    constructor
    · intro h
      cases hfr : findLastSuffix p rest with
      | some b =>
        have hb : b = a := by
          have := h
          simp [findLastSuffix, hfr] at this
          exact this
        subst hb
        rcases (ih b).mp hfr with ⟨k, hk, hp, hmax⟩
        refine ⟨k + 1, by simpa using Nat.succ_le_succ hk, by simpa using hp, ?_⟩
        intro k' h1 h2
        cases k' with
        | zero => omega
        | succ m =>
          have hm := hmax m (by omega) (by simpa using Nat.le_of_succ_le_succ h2)
          simpa using hm
      | none =>
        have hc : p (c :: rest) = some a := by
          simpa [findLastSuffix, hfr] using h
        have hall := (fls_none_iff p rest).mp hfr
        refine ⟨0, Nat.zero_le _, by simpa using hc, ?_⟩
        intro k' h1 _
        cases k' with
        | zero => omega
        | succ m => simpa using hall m
    · rintro ⟨k, hk, hp, hmax⟩
      cases k with
      | zero =>
        have hr : findLastSuffix p rest = none := by
          apply (fls_none_iff p rest).mpr
          intro m
          by_cases hm : m ≤ rest.length
          · have := hmax (m + 1) (by omega) (by simpa using Nat.succ_le_succ hm)
            simpa using this
          · have h1 : rest.drop m = ([] : List Char) := List.drop_eq_nil_of_le (by omega)
            have h3 : rest.drop rest.length = ([] : List Char) :=
              List.drop_eq_nil_of_le (Nat.le_refl _)
            have h2 := hmax (rest.length + 1) (by omega) (by simp)
            rw [h1]
            rw [List.drop_succ_cons, h3] at h2
            exact h2
        have hp0 : p (c :: rest) = some a := by simpa using hp
        simp [findLastSuffix, hr, hp0]
      | succ m =>
        have hrsome : findLastSuffix p rest = some a := by
          apply (ih a).mpr
          refine ⟨m, by simp only [List.length_cons] at hk; omega, by simpa using hp, ?_⟩
          intro k' h1 h2
          have := hmax (k' + 1) (by omega) (by simpa using Nat.succ_le_succ h2)
          simpa using this
        simp [findLastSuffix, hrsome]

theorem head?_dropWhile_false (p : Char → Bool) :
    ∀ (l : List Char) (d : Char), (l.dropWhile p).head? = some d → p d = false := by
  intro l
  induction l with
  | nil => intro d h; simp [List.dropWhile] at h
  | cons x xs ih =>
    intro d h
    rw [List.dropWhile_cons] at h
    by_cases hx : p x
    · rw [if_pos hx] at h
      exact ih d h
    · rw [if_neg hx] at h
      have hxd : x = d := by simpa using h
      rw [← hxd]
      simpa using hx

theorem takeWhile_append_sat (p : Char → Bool) :
    ∀ (ds rest : List Char), (∀ d ∈ ds, p d = true) →
      (∀ d, rest.head? = some d → p d = false) →
      (ds ++ rest).takeWhile p = ds := by
  intro ds
  induction ds with
  | nil =>
    intro rest _ hrest
    cases rest with
    | nil => simp
    | cons r rs =>
      have hr := hrest r (by simp)
      simp [List.takeWhile_cons, hr]
  | cons d ds' ih =>
    intro rest hds hrest
    have hd : p d = true := hds d (by simp)
    simp only [List.cons_append, List.takeWhile_cons, hd, if_true]
    rw [ih rest (fun x hx => hds x (by simp [hx])) hrest]

theorem isPrefixOf_length_le :
    ∀ (l₁ l₂ : List Char), l₁.isPrefixOf l₂ = true → l₁.length ≤ l₂.length := by
  intro l₁
  induction l₁ with
  | nil => intro l₂ _; simp
  | cons a as ih =>
    intro l₂ h
    cases l₂ with
    | nil => simp [List.isPrefixOf] at h
    | cons b bs =>
      simp only [List.isPrefixOf, Bool.and_eq_true, beq_iff_eq] at h
      simpa using ih bs h.2

theorem tryAt_eq_some_iff (l c : List Char) :
    tryAt l = some c ↔
      ∃ ds rest, ds ≠ [] ∧ (∀ d ∈ ds, Char.isDigit d = true) ∧
        (∀ d, rest.head? = some d → Char.isDigit d = false) ∧
        ((l = 't' :: '=' :: '-' :: (ds ++ rest) ∧ c = '-' :: ds) ∨
         (l = 't' :: '=' :: (ds ++ rest) ∧ c = ds)) := by
  constructor
  · intro h
    unfold tryAt at h
    split at h
    · rename_i rest
      split at h
      · rename_i r2
        split at h
        · exact absurd h (by simp)
        · rename_i hne
          have hc : c = '-' :: r2.takeWhile Char.isDigit := by
            have := h; simp at this; exact this.symm
          refine ⟨r2.takeWhile Char.isDigit, r2.dropWhile Char.isDigit,
            ?_, ?_, ?_, Or.inl ⟨?_, hc⟩⟩
          · intro hempty
            rw [hempty] at hne
            simp at hne
          · intro d hd
            exact List.mem_takeWhile_imp hd
          · intro d hd
            exact head?_dropWhile_false Char.isDigit r2 d hd
          · rw [List.takeWhile_append_dropWhile]
      · rename_i hnotdash
        split at h
        · exact absurd h (by simp)
        · rename_i hne
          have hc : c = rest.takeWhile Char.isDigit := by
            have := h; simp at this; exact this.symm
          refine ⟨rest.takeWhile Char.isDigit, rest.dropWhile Char.isDigit,
            ?_, ?_, ?_, Or.inr ⟨?_, hc⟩⟩
          · intro hempty
            rw [hempty] at hne
            simp at hne
          · intro d hd
            exact List.mem_takeWhile_imp hd
          · intro d hd
            exact head?_dropWhile_false Char.isDigit rest d hd
          · rw [List.takeWhile_append_dropWhile]
    · exact absurd h (by simp)
  · rintro ⟨ds, rest, hne, hds, hrest, ⟨hl, hc⟩ | ⟨hl, hc⟩⟩
    · subst hl
      subst hc
      have htw : ((ds ++ rest).takeWhile Char.isDigit) = ds :=
        takeWhile_append_sat Char.isDigit ds rest hds hrest
      simp only [tryAt, htw]
      simp [hne]
    · subst hl
      rw [hc]
      have htw : ((ds ++ rest).takeWhile Char.isDigit) = ds :=
        takeWhile_append_sat Char.isDigit ds rest hds hrest
      cases ds with
      | nil => exact absurd rfl hne
      | cons d0 ds' =>
        have hd0 : Char.isDigit d0 = true := hds d0 (by simp)
        have hd0ne : d0 ≠ '-' := by
          intro he
          rw [he] at hd0
          exact absurd hd0 (by decide)
        unfold tryAt
        split
        · rename_i rest1 heq
          have h4 : d0 :: (ds' ++ rest) = rest1 := by
            rw [List.cons_append] at heq
            injection heq with e1 e2
            injection e2 with e3 e4
          rw [← h4]
          split
          · rename_i r2 heq2
            exfalso
            apply hd0ne
            injection heq2 with f1 f2
          · rw [List.cons_append] at htw
            rw [htw]
            simp
        · rename_i hnomatch
          exact (hnomatch (d0 :: ds' ++ rest) rfl).elim

theorem tryAt_some_len (l c : List Char) (h : tryAt l = some c) : 3 ≤ l.length := by
  rcases (tryAt_eq_some_iff l c).mp h with ⟨ds, rest, hne, -, -, ⟨hl, -⟩ | ⟨hl, -⟩⟩
  · rw [hl]; simp
  · rw [hl]
    have hpos : 0 < ds.length := List.length_pos.mpr hne
    simp [List.length_append]
    omega

theorem hasYes_len (s : List Char) (i : ℕ) (h : hasYes s i = true) : i + 3 ≤ s.length := by
  unfold hasYes at h
  have h3 := isPrefixOf_length_le ['Y', 'E', 'S'] (s.drop i) h
  simp [List.length_drop] at h3
  omega

theorem yesThen_drop (s : List Char) (i : ℕ) :
    yesThen (s.drop i) =
      if hasYes s i = true then findLastSuffix tryAt (s.drop (i + 3)) else none := by
  unfold yesThen hasYes
  rw [List.drop_drop]

theorem matchCapture_isSome_iff (s : List Char) :
    (matchCapture s).isSome = true ↔
      ∃ i j, hasYes s i = true ∧ i + 3 ≤ j ∧ tPos s j = true := by
  rw [Option.isSome_iff_ne_none]
  constructor
  · intro h
    by_contra hno
    apply h
    unfold matchCapture
    apply (fls_none_iff yesThen s).mpr
    intro k
    rw [yesThen_drop s k]
    by_cases hy : hasYes s k = true
    · rw [if_pos hy]
      apply (fls_none_iff tryAt (s.drop (k + 3))).mpr
      intro m
      rw [List.drop_drop]
      by_contra ht
      refine hno ⟨k, k + 3 + m, hy, by omega, ?_⟩
      unfold tPos
      rw [Option.isSome_iff_ne_none]
      exact ht
    · rw [if_neg hy]
  · rintro ⟨i, j, hy, hij, ht⟩ h
    unfold matchCapture at h
    have hall := (fls_none_iff yesThen s).mp h
    have hi := hall i
    rw [yesThen_drop s i, if_pos hy] at hi
    have h2 := (fls_none_iff tryAt (s.drop (i + 3))).mp hi (j - (i + 3))
    rw [List.drop_drop] at h2
    have heq : i + 3 + (j - (i + 3)) = j := by omega
    rw [heq] at h2
    unfold tPos at ht
    rw [h2] at ht
    simp at ht

theorem matchCapture_some_last (s c : List Char) (h : matchCapture s = some c) :
    ∃ j, tPos s j = true ∧ (∃ i, hasYes s i = true ∧ i + 3 ≤ j) ∧
      (∀ j', tPos s j' = true → (∃ i', hasYes s i' = true ∧ i' + 3 ≤ j') → j' ≤ j) ∧
      tryAt (s.drop j) = some c := by
  unfold matchCapture at h
  rcases (fls_some_iff yesThen s c).mp h with ⟨i, hilen, hpi, himax⟩
  rw [yesThen_drop s i] at hpi
  by_cases hy : hasYes s i = true
  swap
  · rw [if_neg hy] at hpi
    exact absurd hpi (by simp)
  rw [if_pos hy] at hpi
  rcases (fls_some_iff tryAt (s.drop (i + 3)) c).mp hpi with ⟨m, hmlen, hpm, hmmax⟩
  rw [List.drop_drop] at hpm
  refine ⟨i + 3 + m, ?_, ⟨i, hy, by omega⟩, ?_, hpm⟩
  · unfold tPos
    rw [hpm]
    rfl
  · rintro j' htj' ⟨i', hy', hi'j⟩
    have h3j : j' + 3 ≤ s.length := by
      have hsome : (tryAt (s.drop j')).isSome = true := htj'
      rw [Option.isSome_iff_exists] at hsome
      rcases hsome with ⟨c', hc'⟩
      have hlen := tryAt_some_len (s.drop j') c' hc'
      rw [List.length_drop] at hlen
      omega
    have h3i : i' + 3 ≤ s.length := hasYes_len s i' hy'
    rcases le_or_lt i' i with hle | hlt
    · rcases le_or_lt j' (i + 3) with hj1 | hj2
      · omega
      · by_contra hgt
        push_neg at hgt
        have hm' := hmmax (j' - (i + 3)) (by omega) (by rw [List.length_drop]; omega)
        rw [List.drop_drop] at hm'
        have heq : i + 3 + (j' - (i + 3)) = j' := by omega
        rw [heq] at hm'
        unfold tPos at htj'
        rw [hm'] at htj'
        simp at htj'
    · have hnone := himax i' hlt (by omega)
      rw [yesThen_drop s i', if_pos hy'] at hnone
      have hz := (fls_none_iff tryAt (s.drop (i' + 3))).mp hnone (j' - (i' + 3))
      rw [List.drop_drop] at hz
      have heq : i' + 3 + (j' - (i' + 3)) = j' := by omega
      rw [heq] at hz
      unfold tPos at htj'
      rw [hz] at htj'
      simp at htj'

/-- C10: the pattern matches iff a `t=<integer>` field occurs somewhere
at or after the end of an occurrence of `YES` anywhere in the text
(newlines included, since `(?s)` makes `.` match them); when several
such fields follow the marker, the greedy prefixes make the captured
value come from the last such occurrence, and the capture is the
optional sign followed by the maximal digit run there. -/
theorem c10_regex_semantics :
    (∀ s : List Char,
      ((matchCapture s).isSome = true ↔
        ∃ i j, hasYes s i = true ∧ i + 3 ≤ j ∧ tPos s j = true) ∧
      ∀ c, matchCapture s = some c →
        ∃ j, tPos s j = true ∧ (∃ i, hasYes s i = true ∧ i + 3 ≤ j) ∧
          (∀ j', tPos s j' = true → (∃ i', hasYes s i' = true ∧ i' + 3 ≤ j') → j' ≤ j) ∧
          tryAt (s.drop j) = some c) ∧
    ∀ l c, tryAt l = some c ↔
      ∃ ds rest, ds ≠ [] ∧ (∀ d ∈ ds, Char.isDigit d = true) ∧
        (∀ d, rest.head? = some d → Char.isDigit d = false) ∧
        ((l = 't' :: '=' :: '-' :: (ds ++ rest) ∧ c = '-' :: ds) ∨
         (l = 't' :: '=' :: (ds ++ rest) ∧ c = ds)) :=
  ⟨fun s => ⟨matchCapture_isSome_iff s, fun c h => matchCapture_some_last s c h⟩,
    tryAt_eq_some_iff⟩

/-- Witness for C10 at the concrete payload "YES t=1 t=2": `YES` at 0,
a `t=<integer>` field at 8, so the pattern matches. -/
theorem c10_regex_semantics_witness :
    (matchCapture ("YES t=1 t=2".toList)).isSome = true :=
  (c10_regex_semantics.1 ("YES t=1 t=2".toList)).1.mpr ⟨0, 8, by decide, by decide, by decide⟩

theorem readLoop_attempts_le :
    ∀ (l : List ReadAttempt) (sl n : ℕ), (readLoop l sl n).attempts ≤ n + l.length := by
  intro l
  induction l with
  | nil => intro sl n; simp [readLoop]
  | cons a rest ih =>
    intro sl n
    cases a with
    | ioError => simp [readLoop]
    | payload s =>
      cases hm : matchCapture s with
      | some c => simp [readLoop, hm]
      | none =>
        have := ih (sl + 1) (n + 1)
        simp [readLoop, hm]
        omega

/-- C3: with all five payload reads succeeding (no I/O error), the
read makes at most 5 attempts; a first pattern match on attempt `N`
(1 ≤ N ≤ 5) returns success after exactly `N - 1` one-second sleeps
and `N` attempts; no match within 5 attempts returns the
"Failed to read device" error after all 5 attempts. -/
theorem c3_retry_policy (att : ℕ → ReadAttempt) :
    (readOnewireDevicePayload att).attempts ≤ 5 ∧
    (∀ N : ℕ, 1 ≤ N → N ≤ 5 →
      (∀ k, k < N - 1 → ∃ s, att k = ReadAttempt.payload s ∧ matchCapture s = none) →
      (∃ s c, att (N - 1) = ReadAttempt.payload s ∧ matchCapture s = some c) →
      (readOnewireDevicePayload att).err = none ∧
        (readOnewireDevicePayload att).sleeps = N - 1 ∧
        (readOnewireDevicePayload att).attempts = N) ∧
    ((∀ k, k < 5 → ∃ s, att k = ReadAttempt.payload s ∧ matchCapture s = none) →
      (readOnewireDevicePayload att).err = some ReadErr.readFailed ∧
        (readOnewireDevicePayload att).attempts = 5 ∧
        (readOnewireDevicePayload att).sleeps = 5) := by
  refine ⟨?_, ?_, ?_⟩
  · have := readLoop_attempts_le (attemptsList att) 0 0
    simpa [readOnewireDevicePayload, attemptsList] using this
  · intro N h1 h5 hpre hmatch
    rcases hmatch with ⟨s, c, hs, hc⟩
    interval_cases N
    · simp only [Nat.sub_self] at hs
      simp [readOnewireDevicePayload, attemptsList, readLoop, hs, hc]
    · obtain ⟨s0, hs0, hm0⟩ := hpre 0 (by omega)
      simp only [show (2:ℕ) - 1 = 1 from rfl] at hs
      simp [readOnewireDevicePayload, attemptsList, readLoop, hs0, hm0, hs, hc]
    · obtain ⟨s0, hs0, hm0⟩ := hpre 0 (by omega)
      obtain ⟨s1, hs1, hm1⟩ := hpre 1 (by omega)
      simp only [show (3:ℕ) - 1 = 2 from rfl] at hs
      simp [readOnewireDevicePayload, attemptsList, readLoop, hs0, hm0, hs1, hm1, hs, hc]
    · obtain ⟨s0, hs0, hm0⟩ := hpre 0 (by omega)
      obtain ⟨s1, hs1, hm1⟩ := hpre 1 (by omega)
      obtain ⟨s2, hs2, hm2⟩ := hpre 2 (by omega)
      simp only [show (4:ℕ) - 1 = 3 from rfl] at hs
      simp [readOnewireDevicePayload, attemptsList, readLoop, hs0, hm0, hs1, hm1, hs2, hm2,
        hs, hc]
    · obtain ⟨s0, hs0, hm0⟩ := hpre 0 (by omega)
      obtain ⟨s1, hs1, hm1⟩ := hpre 1 (by omega)
      obtain ⟨s2, hs2, hm2⟩ := hpre 2 (by omega)
      obtain ⟨s3, hs3, hm3⟩ := hpre 3 (by omega)
      simp only [show (5:ℕ) - 1 = 4 from rfl] at hs
      simp [readOnewireDevicePayload, attemptsList, readLoop, hs0, hm0, hs1, hm1, hs2, hm2,
        hs3, hm3, hs, hc]
  · intro hall
    obtain ⟨s0, hs0, hm0⟩ := hall 0 (by omega)
    obtain ⟨s1, hs1, hm1⟩ := hall 1 (by omega)
    obtain ⟨s2, hs2, hm2⟩ := hall 2 (by omega)
    obtain ⟨s3, hs3, hm3⟩ := hall 3 (by omega)
    obtain ⟨s4, hs4, hm4⟩ := hall 4 (by omega)
    simp [readOnewireDevicePayload, attemptsList, readLoop, hs0, hm0, hs1, hm1, hs2, hm2,
      hs3, hm3, hs4, hm4]

/-- Witness for C3: a stream failing to parse on attempts 1 and 2 and
matching on attempt 3 succeeds with exactly 2 sleeps and 3 attempts. -/
theorem c3_retry_policy_witness :
    (readOnewireDevicePayload
        (fun k => if k < 2 then ReadAttempt.payload ("NO".toList)
                  else ReadAttempt.payload ("YES t=21500".toList))).err = none ∧
    (readOnewireDevicePayload
        (fun k => if k < 2 then ReadAttempt.payload ("NO".toList)
                  else ReadAttempt.payload ("YES t=21500".toList))).sleeps = 2 ∧
    (readOnewireDevicePayload
        (fun k => if k < 2 then ReadAttempt.payload ("NO".toList)
                  else ReadAttempt.payload ("YES t=21500".toList))).attempts = 3 :=
  (c3_retry_policy _).2.1 3 (by decide) (by decide)
    (fun k hk => ⟨"NO".toList, by interval_cases k <;> exact ⟨rfl, by decide⟩⟩)
    ⟨"YES t=21500".toList, "21500".toList, rfl, by decide⟩

/-- C4: on a payload text matching the pattern, the read returns
exactly the captured integer divided by 1000 as the Celsius value,
with no error (and no sleep, on the first attempt). -/
theorem c4_parse_conversion (s c : List Char) (att : ℕ → ReadAttempt)
    (h0 : att 0 = ReadAttempt.payload s) (hm : matchCapture s = some c) :
    readOnewireDevicePayload att = ⟨parseSigned c / 1000, none, 0, 1⟩ := by
  simp [readOnewireDevicePayload, attemptsList, readLoop, h0, hm]

/-- Witness for C4: payload "YES t=21500" parses to 21.5 °C. -/
theorem c4_parse_conversion_witness :
    readOnewireDevicePayload (fun _ => ReadAttempt.payload ("YES t=21500".toList)) =
      ⟨parseSigned ("21500".toList) / 1000, none, 0, 1⟩ ∧
    parseSigned ("21500".toList) / 1000 = (43 : ℚ) / 2 :=
  ⟨c4_parse_conversion ("YES t=21500".toList) ("21500".toList) _ rfl (by decide),
    by rw [show parseSigned ("21500".toList) = (21500 : ℚ) from by decide]; norm_num⟩

/-- C7: an I/O error on a read attempt short-circuits the whole
operation: the read returns the I/O error immediately after that
attempt, with no further attempt and no sleep after the error (all
`k` counted sleeps precede it, one per earlier parse failure). -/
theorem c7_io_error_short_circuit (att : ℕ → ReadAttempt) (k : ℕ) (hk : k < 5)
    (hpre : ∀ j, j < k → ∃ s, att j = ReadAttempt.payload s ∧ matchCapture s = none)
    (hio : att k = ReadAttempt.ioError) :
    readOnewireDevicePayload att = ⟨0, some ReadErr.ioErr, k, k + 1⟩ := by
  interval_cases k
  · simp [readOnewireDevicePayload, attemptsList, readLoop, hio]
  · obtain ⟨s0, hs0, hm0⟩ := hpre 0 (by omega)
    simp [readOnewireDevicePayload, attemptsList, readLoop, hs0, hm0, hio]
  · obtain ⟨s0, hs0, hm0⟩ := hpre 0 (by omega)
    obtain ⟨s1, hs1, hm1⟩ := hpre 1 (by omega)
    simp [readOnewireDevicePayload, attemptsList, readLoop, hs0, hm0, hs1, hm1, hio]
  · obtain ⟨s0, hs0, hm0⟩ := hpre 0 (by omega)
    obtain ⟨s1, hs1, hm1⟩ := hpre 1 (by omega)
    obtain ⟨s2, hs2, hm2⟩ := hpre 2 (by omega)
    simp [readOnewireDevicePayload, attemptsList, readLoop, hs0, hm0, hs1, hm1, hs2, hm2, hio]
  · obtain ⟨s0, hs0, hm0⟩ := hpre 0 (by omega)
    obtain ⟨s1, hs1, hm1⟩ := hpre 1 (by omega)
    obtain ⟨s2, hs2, hm2⟩ := hpre 2 (by omega)
    obtain ⟨s3, hs3, hm3⟩ := hpre 3 (by omega)
    simp [readOnewireDevicePayload, attemptsList, readLoop, hs0, hm0, hs1, hm1, hs2, hm2,
      hs3, hm3, hio]

/-- Witness for C7: the file unreadable on the very first attempt
gives a single attempt, zero sleeps and the I/O error. -/
theorem c7_io_error_short_circuit_witness :
    readOnewireDevicePayload (fun _ => ReadAttempt.ioError) =
      ⟨0, some ReadErr.ioErr, 0, 0 + 1⟩ :=
  c7_io_error_short_circuit (fun _ => ReadAttempt.ioError) 0 (by decide)
    (fun j hj => absurd hj (by omega)) rfl

theorem take_set_succ {α : Type} :
    ∀ (l : List α) (k : ℕ) (x : α), k < l.length →
      (l.set k x).take (k + 1) = l.take k ++ [x] := by
  intro l
  induction l with
  | nil => intro k x h; simp at h
  | cons a as ih =>
    intro k x h
    cases k with
    | zero => simp
    | succ m =>
      have hm : m < as.length := by simpa using h
      simp only [List.set_cons_succ, List.take_succ_cons, List.cons_append]
      rw [ih m x hm]

theorem drop_set_of_le {α : Type} :
    ∀ (l : List α) (k m : ℕ) (x : α), k < m → (l.set k x).drop m = l.drop m := by
  intro l
  induction l with
  | nil => intro k m x _; simp
  | cons a as ih =>
    intro k m x h
    cases k with
    | zero =>
      cases m with
      | zero => omega
      | succ m' => simp [List.drop_succ_cons]
    | succ k' =>
      cases m with
      | zero => omega
      | succ m' =>
        simp only [List.set_cons_succ, List.drop_succ_cons]
        exact ih k' m' x (by omega)

theorem passLoop_eq (vals : String → ℚ) :
    ∀ (devices : List String) (k : ℕ) (st : List sensor), st.length = k + devices.length →
      passLoop vals k devices st = st.take k ++ newSensors devices vals := by
  intro devices
  induction devices with
  | nil =>
    intro k st h
    have ht : st.take k = st := List.take_of_length_le (by simp at h; omega)
    simp [passLoop, newSensors, ht]
  | cons d rest ih =>
    intro k st h
    have hlt : k < st.length := by simp at h; omega
    simp only [passLoop]
    rw [ih (k + 1) _ (by simp [List.length_set]; simp at h; omega)]
    rw [take_set_succ st k (mkSensor d (vals d)) hlt]
    simp [newSensors, List.append_assoc]

theorem passTrace_mem (vals : String → ℚ) :
    ∀ (devices : List String) (k : ℕ) (st tr : List sensor),
      st.length = k + devices.length → tr ∈ passTrace vals k devices st →
      ∃ j, j ≤ devices.length ∧
        tr = st.take k ++ (newSensors (devices.take j) vals ++ st.drop (k + j)) := by
  intro devices
  induction devices with
  | nil =>
    intro k st tr h hmem
    simp [passTrace] at hmem
    subst hmem
    exact ⟨0, by omega, by simp [newSensors]⟩
  | cons d rest ih =>
    intro k st tr h hmem
    simp only [passTrace, List.mem_cons] at hmem
    rcases hmem with rfl | hmem
    · exact ⟨0, by omega, by simp [newSensors]⟩
    · have hlt : k < st.length := by simp at h; omega
      have h' : (st.set k (mkSensor d (vals d))).length = (k + 1) + rest.length := by
        simp [List.length_set]; simp at h; omega
      rcases ih (k + 1) _ tr h' hmem with ⟨j, hj, htr⟩
      refine ⟨j + 1, by simp; omega, ?_⟩
      rw [htr]
      rw [take_set_succ st k (mkSensor d (vals d)) hlt]
      rw [drop_set_of_le st k (k + 1 + j) (mkSensor d (vals d)) (by omega)]
      have harith : k + 1 + j = k + (j + 1) := by omega
      rw [harith]
      simp [newSensors, List.append_assoc]

theorem runPass_eq (devices : List String) (vals : String → ℚ) (st : List sensor)
    (h : st.length = devices.length) : runPass devices vals st = newSensors devices vals := by
  unfold runPass
  rw [List.take_of_length_le (le_of_eq h)]
  have hp := passLoop_eq vals devices 0 st (by omega)
  simpa using hp

theorem obsStates_mem (devices : List String) (vals : String → ℚ) (st : List sensor)
    (h : st.length = devices.length) (tr : List sensor)
    (htr : tr ∈ obsStates devices vals st) :
    ∃ j, j ≤ devices.length ∧ tr = newSensors (devices.take j) vals ++ st.drop j := by
  unfold obsStates at htr
  rw [List.take_of_length_le (le_of_eq h)] at htr
  rcases passTrace_mem vals devices 0 st tr (by omega) htr with ⟨j, hj, he⟩
  exact ⟨j, hj, by simpa using he⟩

theorem readLoop_err_value :
    ∀ (l : List ReadAttempt) (sl n : ℕ), (readLoop l sl n).err.isSome = true →
      (readLoop l sl n).value = 0 := by
  intro l
  induction l with
  | nil => intro sl n _; simp [readLoop]
  | cons a rest ih =>
    intro sl n h
    cases a with
    | ioError => simp [readLoop]
    | payload s =>
      cases hm : matchCapture s with
      | some c => simp [readLoop, hm] at h
      | none =>
        simp only [readLoop, hm] at h ⊢
        exact ih _ _ h

theorem passGauge_not_mem (f : String → ℚ) :
    ∀ (devices : List String) (g : String → Option ℚ) (d : String), d ∉ devices →
      passGauge f devices g d = g d := by
  intro devices
  induction devices with
  | nil => intro g d _; rfl
  | cons e rest ih =>
    intro g d hd
    have hde : d ≠ e := by intro he; exact hd (by simp [he])
    have hdr : d ∉ rest := fun hr => hd (by simp [hr])
    simp only [passGauge]
    rw [ih _ d hdr]
    simp [hde]

theorem passGauge_mem (f : String → ℚ) :
    ∀ (devices : List String) (g : String → Option ℚ) (d : String), d ∈ devices →
      passGauge f devices g d = some (f d) := by
  intro devices
  induction devices with
  | nil => intro g d h; simp at h
  | cons e rest ih =>
    intro g d hd
    by_cases hr : d ∈ rest
    · simp only [passGauge]
      exact ih _ d hr
    · have hde : d = e := by
        rcases List.mem_cons.mp hd with h | h
        · exact h
        · exact absurd h hr
      subst hde
      simp only [passGauge]
      rw [passGauge_not_mem f rest _ d hr]
      simp

/-- C1 counterexample: a device whose read fails all five parse
attempts is NOT skipped: the pass overwrites the previous value 2 of
its gauge with 0 and publishes a value-0 reading into its snapshot
slot, so neither the gauge nor the slot retains the previous pass's
value. -/
theorem c1_counterexample :
    ((readOnewireDevicePayload
        ((fun _ _ => ReadAttempt.payload ("NO".toList)) "28-1")).err).isSome = true ∧
    observePass (fun _ _ => ReadAttempt.payload ("NO".toList)) ["28-1"] [mkSensor "28-1" 2] =
      [mkSensor "28-1" 0] ∧
    mkSensor "28-1" 0 ≠ mkSensor "28-1" 2 ∧
    observeGaugeC (fun _ _ => ReadAttempt.payload ("NO".toList)) ["28-1"]
        (fun _ => some 2) "28-1" = some 0 ∧
    some (0 : ℚ) ≠ some (2 : ℚ) :=
  ⟨by decide, by decide, by decide, by decide, by decide⟩

/-- C1 (amended): when a device's read/parse fails, the loop records a
diagnostic error but does not skip the device: it still sets the
device's Celsius gauge to 0 (the value returned alongside the error),
sets the Fahrenheit gauge (when enabled) to `fahrenheit 0 = 32`, and
overwrites the device's snapshot slot with a value-0 reading. -/
theorem c1_error_still_updates (devices : List String) (att : String → ℕ → ReadAttempt)
    (st : List sensor) (g gF : String → Option ℚ) (i : ℕ) (h : i < devices.length)
    (hlen : st.length = devices.length)
    (herr : ((readOnewireDevicePayload (att (devices.get ⟨i, h⟩))).err).isSome = true) :
    (observePass att devices st).get? i = some (mkSensor (devices.get ⟨i, h⟩) 0) ∧
    observeGaugeC att devices g (devices.get ⟨i, h⟩) = some 0 ∧
    observeGaugeF att devices gF (devices.get ⟨i, h⟩) = some (fahrenheit 0) ∧
    fahrenheit 0 = 32 := by
  have hv : deviceValue att (devices.get ⟨i, h⟩) = 0 := by
    unfold deviceValue readOnewireDevicePayload
    unfold readOnewireDevicePayload at herr
    exact readLoop_err_value _ 0 0 herr
  have hmem : devices.get ⟨i, h⟩ ∈ devices := List.get_mem devices i h
  refine ⟨?_, ?_, ?_, ?_⟩
  · unfold observePass
    rw [runPass_eq devices _ st hlen]
    unfold newSensors
    rw [List.get?_map, List.get?_eq_get h]
    simp only [Option.map_some']
    exact congrArg some (congrArg _ hv)
  · unfold observeGaugeC
    rw [passGauge_mem _ devices g _ hmem, hv]
  · unfold observeGaugeF
    rw [passGauge_mem _ devices gF _ hmem, hv]
  · norm_num [fahrenheit, goRound]

/-- Witness for the amended C1: one device whose file is unreadable;
after the pass its slot reads 0 and its gauges read 0 °C / 32 °F. -/
theorem c1_error_still_updates_witness :
    (observePass (fun _ _ => ReadAttempt.ioError) ["28-1"] [mkSensor "28-1" 2]).get? 0 =
      some (mkSensor "28-1" 0) ∧
    observeGaugeC (fun _ _ => ReadAttempt.ioError) ["28-1"] (fun _ => none) "28-1" = some 0 ∧
    observeGaugeF (fun _ _ => ReadAttempt.ioError) ["28-1"] (fun _ => none) "28-1" =
      some (fahrenheit 0) ∧
    fahrenheit 0 = 32 :=
  c1_error_still_updates ["28-1"] (fun _ _ => ReadAttempt.ioError) [mkSensor "28-1" 2]
    (fun _ => none) (fun _ => none) 0 (by decide) rfl (by decide)

/-- C2 counterexample: with two devices, the state after updating only
the first device is among the observable states of the shared slice
(the pass mutates it in place, element by element) and is neither the
fully-previous nor the fully-current snapshot. -/
theorem c2_counterexample :
    [mkSensor "a" 3, mkSensor "b" 2] ∈
      obsStates ["a", "b"] (fun d => if d = "a" then (3 : ℚ) else 4)
        [mkSensor "a" 1, mkSensor "b" 2] ∧
    [mkSensor "a" 3, mkSensor "b" 2] ≠ [mkSensor "a" 1, mkSensor "b" 2] ∧
    [mkSensor "a" 3, mkSensor "b" 2] ≠
      runPass ["a", "b"] (fun d => if d = "a" then (3 : ℚ) else 4)
        [mkSensor "a" 1, mkSensor "b" 2] :=
  ⟨by decide, by decide, by decide⟩

/-- C2 (amended): the pass does not build the new snapshot in a
private buffer; it mutates the shared slice slot by slot.  Every
observable mid-pass state consists of the first `j` devices' new
readings followed by the old tail, and the final state is the
fully-new snapshot. -/
theorem c2_in_place_mutation (devices : List String) (vals : String → ℚ) (st : List sensor)
    (h : st.length = devices.length) :
    (∀ tr ∈ obsStates devices vals st,
      ∃ j, j ≤ devices.length ∧ tr = newSensors (devices.take j) vals ++ st.drop j) ∧
    runPass devices vals st = newSensors devices vals :=
  ⟨fun tr htr => obsStates_mem devices vals st h tr htr, runPass_eq devices vals st h⟩

/-- Witness for the amended C2 on a one-device list. -/
theorem c2_in_place_mutation_witness :
    runPass ["a"] (fun _ => (3 : ℚ)) [mkSensor "a" 1] =
      newSensors ["a"] (fun _ => (3 : ℚ)) :=
  (c2_in_place_mutation ["a"] (fun _ => (3 : ℚ)) [mkSensor "a" 1] rfl).2

theorem goodFor_newSensors (devices : List String) (vals : String → ℚ) :
    goodFor devices (newSensors devices vals) := by
  constructor
  · simp [newSensors]
  · intro i h
    refine ⟨vals (devices.get ⟨i, h⟩), ?_⟩
    unfold newSensors
    rw [List.get?_map, List.get?_eq_get h]
    rfl

theorem goodFor_runPass (devices : List String) (vals : String → ℚ) (st : List sensor)
    (hlen : st.length = devices.length) : goodFor devices (runPass devices vals st) := by
  rw [runPass_eq devices vals st hlen]
  exact goodFor_newSensors devices vals

theorem goodFor_obsStates (devices : List String) (vals : String → ℚ) (st : List sensor)
    (hg : goodFor devices st) : ∀ tr ∈ obsStates devices vals st, goodFor devices tr := by
  intro tr htr
  rcases obsStates_mem devices vals st hg.1 tr htr with ⟨j, hj, rfl⟩
  constructor
  · simp [newSensors, hg.1]
    omega
  · intro i hi
    by_cases hij : i < j
    · rw [List.get?_append (by simp [newSensors]; omega)]
      unfold newSensors
      rw [List.get?_map, List.get?_take hij, List.get?_eq_get hi]
      exact ⟨vals (devices.get ⟨i, hi⟩), rfl⟩
    · push_neg at hij
      rw [List.get?_append_right (by simp [newSensors]; omega)]
      have hlen2 : (newSensors (devices.take j) vals).length = j := by
        simp [newSensors]
        omega
      rw [hlen2, List.get?_drop]
      have harith : j + (i - j) = i := by omega
      rw [harith]
      exact hg.2 i hi

theorem goodFor_statesFrom (devices : List String) :
    ∀ (passes : List (String → ℚ)) (st : List sensor), goodFor devices st →
      ∀ tr ∈ statesFrom devices passes st, goodFor devices tr := by
  intro passes
  induction passes with
  | nil => intro st _ tr htr; simp [statesFrom] at htr
  | cons v rest ih =>
    intro st hst tr htr
    simp only [statesFrom, List.mem_append] at htr
    rcases htr with h1 | h2
    · exact goodFor_obsStates devices v st hst tr h1
    · exact ih (runPass devices v st) (goodFor_runPass devices v st hst.1) tr h2

/-- C8: the snapshot container has the device-list length from the
moment discovery allocates it, and at every observable moment after
the first pass completes (its final state, and all states during or
after later passes) the snapshot keeps that length and slot `i` holds
a reading for the `i`-th device with sensor type "temperature". -/
theorem c8_snapshot_invariant (devices : List String) (v0 : String → ℚ)
    (passes : List (String → ℚ)) :
    (initSensors devices).length = devices.length ∧
    ∀ st, (st = runPass devices v0 (initSensors devices) ∨
           st ∈ statesFrom devices passes (runPass devices v0 (initSensors devices))) →
      st.length = devices.length ∧
      ∀ i (h : i < devices.length), ∃ q, st.get? i = some (mkSensor (devices.get ⟨i, h⟩) q) := by
  have hinit : (initSensors devices).length = devices.length := by simp [initSensors]
  refine ⟨hinit, ?_⟩
  intro st hst
  have hfirst : goodFor devices (runPass devices v0 (initSensors devices)) :=
    goodFor_runPass devices v0 (initSensors devices) hinit
  rcases hst with rfl | hmem
  · exact hfirst
  · exact goodFor_statesFrom devices passes _ hfirst st hmem

/-- Witness for C8: one device, first pass completed. -/
theorem c8_snapshot_invariant_witness :
    (runPass ["28-1"] (fun _ => (5 : ℚ)) (initSensors ["28-1"])).length = ["28-1"].length ∧
    ∃ q, (runPass ["28-1"] (fun _ => (5 : ℚ)) (initSensors ["28-1"])).get? 0 =
      some (mkSensor "28-1" q) := by
  have h := (c8_snapshot_invariant ["28-1"] (fun _ => (5 : ℚ)) []).2
    (runPass ["28-1"] (fun _ => (5 : ℚ)) (initSensors ["28-1"])) (Or.inl rfl)
  exact ⟨h.1, h.2 0 (by decide)⟩

theorem createList_eq_filter (names : List String) :
    createList names = names.filter (fun n => ! strContains n "w1_bus_master1") := by
  have hgen : ∀ (l : List String) (acc : List String),
      l.foldl
          (fun acc n => if strContains n "w1_bus_master1" = true then acc else acc ++ [n]) acc =
        acc ++ l.filter (fun n => ! strContains n "w1_bus_master1") := by
    intro l
    induction l with
    | nil => intro acc; simp
    | cons x xs ih =>
      intro acc
      by_cases hx : strContains x "w1_bus_master1" = true
      · simp only [List.foldl_cons, if_pos hx]
        rw [ih acc]
        simp [List.filter_cons, hx]
      · simp only [List.foldl_cons, if_neg hx]
        rw [ih (acc ++ [x])]
        simp [List.filter_cons, hx, List.append_assoc]
  have h := hgen names []
  simpa [createList] using h

/-- C5: device discovery keeps exactly the directory entries whose
names do not contain the substring "w1_bus_master1", in enumeration
order, and the snapshot container is allocated with that list's
length; on the example listing the result is exactly
["28-000001", "28-000002"]. -/
theorem c5_device_discovery :
    (∀ names : List String,
      createList names = names.filter (fun n => ! strContains n "w1_bus_master1") ∧
      (initSensors (createList names)).length = (createList names).length) ∧
    createList ["28-000001", "28-000002", "w1_bus_master1"] = ["28-000001", "28-000002"] :=
  ⟨fun names => ⟨createList_eq_filter names, by simp [initSensors]⟩, by decide⟩

/-- C9: `createOnewireDeviceList` never returns a non-nil error: an
unreadable device root terminates the process inside the function via
`log.Fatalf`, and the success path returns `nil`; hence the caller's
branch logging "Error getting Onewire device list" is unreachable. -/
theorem c9_error_branch_unreachable :
    ∀ dir : Option (List String),
      observeStartup dir ≠ StartupOutcome.exitInCaller ∧
      ∀ devs e, createOnewireDeviceList dir = ListerOutcome.returned devs e → e = none := by
  intro dir
  cases dir with
  | none =>
    refine ⟨by simp [observeStartup, createOnewireDeviceList], ?_⟩
    intro devs e h
    simp [createOnewireDeviceList] at h
  | some names =>
    refine ⟨by simp [observeStartup, createOnewireDeviceList], ?_⟩
    intro devs e h
    simp only [createOnewireDeviceList, ListerOutcome.returned.injEq] at h
    exact h.2.symm

/-- Witness for C9 on a concrete readable directory listing. -/
theorem c9_error_branch_unreachable_witness :
    observeStartup (some ["28-0001"]) ≠ StartupOutcome.exitInCaller ∧
    (none : Option String) = none :=
  ⟨(c9_error_branch_unreachable (some ["28-0001"])).1,
   (c9_error_branch_unreachable (some ["28-0001"])).2 (createList ["28-0001"]) none rfl⟩

theorem goRound_half_le (q : ℚ) : |(goRound q : ℚ) - q| ≤ 1 / 2 := by
  unfold goRound
  by_cases hq : q < 0
  · rw [if_pos hq]
    have h1 : (⌊-q + 1 / 2⌋ : ℚ) ≤ -q + 1 / 2 := Int.floor_le _
    have h2 : -q + 1 / 2 < ⌊-q + 1 / 2⌋ + 1 := Int.lt_floor_add_one _
    push_cast
    rw [abs_le]
    constructor <;> linarith
  · rw [if_neg hq]
    have h1 : (⌊q + 1 / 2⌋ : ℚ) ≤ q + 1 / 2 := Int.floor_le _
    have h2 : q + 1 / 2 < ⌊q + 1 / 2⌋ + 1 := Int.lt_floor_add_one _
    rw [abs_le]
    constructor <;> linarith

theorem goRound_nearest (q : ℚ) (n : ℤ) : |(goRound q : ℚ) - q| ≤ |(n : ℚ) - q| := by
  rcases eq_or_ne n (goRound q) with rfl | hne
  · exact le_refl _
  · have hz : (n - goRound q : ℤ) ≠ 0 := sub_ne_zero.mpr hne
    have h1 : (1 : ℤ) ≤ |n - goRound q| := Int.one_le_abs hz
    have h1q : (1 : ℚ) ≤ |(n : ℚ) - (goRound q : ℚ)| := by
      have := h1
      have hcast : |((n - goRound q : ℤ) : ℚ)| = |(n : ℚ) - (goRound q : ℚ)| := by
        push_cast
        rfl
      rw [← hcast]
      exact_mod_cast h1
    have h2 := goRound_half_le q
    have tri : |(n : ℚ) - (goRound q : ℚ)| ≤ |(n : ℚ) - q| + |q - (goRound q : ℚ)| :=
      abs_sub_le _ _ _
    rw [abs_sub_comm q] at tri
    linarith

theorem goRound_ties_away (q : ℚ) (h : |(goRound q : ℚ) - q| = 1 / 2) :
    |(goRound q : ℚ)| = |q| + 1 / 2 := by
  unfold goRound at h ⊢
  by_cases hq : q < 0
  · rw [if_pos hq] at h ⊢
    have h1 : (⌊-q + 1 / 2⌋ : ℚ) ≤ -q + 1 / 2 := Int.floor_le _
    have h2 : -q + 1 / 2 < ⌊-q + 1 / 2⌋ + 1 := Int.lt_floor_add_one _
    push_cast at h ⊢
    rcases (abs_eq (by norm_num : (0 : ℚ) ≤ 1 / 2)).mp h with he | he
    · linarith
    · have hfl : (⌊-q + 1 / 2⌋ : ℚ) = -q + 1 / 2 := by linarith
      rw [abs_of_neg hq]
      rw [abs_of_nonpos (by linarith : -((⌊-q + 1 / 2⌋ : ℤ) : ℚ) ≤ 0)]
      linarith
  · rw [if_neg hq] at h ⊢
    push_neg at hq
    have h1 : (⌊q + 1 / 2⌋ : ℚ) ≤ q + 1 / 2 := Int.floor_le _
    have h2 : q + 1 / 2 < ⌊q + 1 / 2⌋ + 1 := Int.lt_floor_add_one _
    rcases (abs_eq (by norm_num : (0 : ℚ) ≤ 1 / 2)).mp h with he | he
    · have hfl : (⌊q + 1 / 2⌋ : ℚ) = q + 1 / 2 := by linarith
      rw [abs_of_nonneg hq, abs_of_nonneg (by linarith : (0 : ℚ) ≤ ((⌊q + 1 / 2⌋ : ℤ) : ℚ))]
      linarith
    · linarith

/-- C6: the exported Fahrenheit value satisfies
`fahrenheit C × 100 = round((C × 1.8 + 32) × 100)` where the rounding
is to the nearest integer with ties away from zero, and the table of
known pairs (0, 32), (100, 212), (-40, -40), (36.5, 97.7) holds. -/
theorem c6_fahrenheit_conversion :
    (∀ C : ℚ, 100 * fahrenheit C = (goRound ((C * 1.8 + 32) * 100) : ℚ)) ∧
    (∀ C : ℚ, ∀ n : ℤ,
      |(goRound ((C * 1.8 + 32) * 100) : ℚ) - (C * 1.8 + 32) * 100| ≤
        |(n : ℚ) - (C * 1.8 + 32) * 100|) ∧
    (∀ C : ℚ, |(goRound ((C * 1.8 + 32) * 100) : ℚ) - (C * 1.8 + 32) * 100| = 1 / 2 →
      |(goRound ((C * 1.8 + 32) * 100) : ℚ)| = |(C * 1.8 + 32) * 100| + 1 / 2) ∧
    fahrenheit 0 = 32 ∧ fahrenheit 100 = 212 ∧ fahrenheit (-40) = -40 ∧
    fahrenheit 36.5 = 97.7 := by
  refine ⟨?_, ?_, ?_, ?_, ?_, ?_, ?_⟩
  · intro C
    unfold fahrenheit
    ring
  · intro C n
    exact goRound_nearest _ n
  · intro C h
    exact goRound_ties_away _ h
  · norm_num [fahrenheit, goRound]
  · norm_num [fahrenheit, goRound]
  · norm_num [fahrenheit, goRound]
  · norm_num [fahrenheit, goRound]

/-- Witness for C6: at C = -1/360 the scaled value is 3199.5, a tie,
and the rounding goes away from zero. -/
theorem c6_fahrenheit_conversion_witness :
    |(goRound ((((-1 : ℚ) / 360) * 1.8 + 32) * 100) : ℚ)| =
      |((((-1 : ℚ) / 360) * 1.8 + 32) * 100)| + 1 / 2 ∧
    fahrenheit 0 = 32 :=
  ⟨c6_fahrenheit_conversion.2.2.1 ((-1 : ℚ) / 360) (by norm_num [goRound]),
   c6_fahrenheit_conversion.2.2.2.1⟩
